import Mathlib

/-!
Shallow embedding of the subscription-commerce backend
(models/Subscription, models/Service, middleware/auth.js, routes/subscriptions).

Conventions of the embedding:
* JavaScript numbers that carry money are modelled as rationals (ℚ);
  counters are modelled as integers so that "never negative" is a real claim;
  quantities are naturals, `Option` marks a field that may be absent.
* JavaScript truthiness on numeric/nullable fields (`x && ...`) is modelled
  explicitly: `none` and `some 0` are falsy.
* `Math.round x` is `⌊x + 1/2⌋` (round half toward positive infinity).
* Mongoose documents are records; model methods are pure functions
  `state → state`; route handlers return an `Except` paired with the
  resulting state, the state being unchanged on every rejection.
* The JS `Date` is modelled by its calendar components (year, 0-based month,
  1-based day); `setMonth`/`setFullYear` day-overflow rolls into the
  following month exactly as the JS runtime does for valid dates.
-/

/-- JS `Math.round` on a rational: round half up (toward +∞). -/
def mathRound (q : ℚ) : ℤ := ⌊q + 1/2⌋

/-- Calendar date as JS `Date` components: year, month index (0–11), day (1-based). -/
structure Date where
  year : Int
  month : Nat
  day : Nat
deriving DecidableEq, Repr

/-- A date is well formed when the month index and day are in calendar range. -/
def Date.Valid (d : Date) : Prop :=
  d.month < 12 ∧ 1 ≤ d.day ∧ d.day ≤ 31

/-- Gregorian leap-year rule, as the JS engine computes it. -/
def isLeapYear (y : Int) : Bool :=
  (y % 4 == 0 && y % 100 != 0) || y % 400 == 0

/-- Number of days of the month with 0-based index `m` of year `y`. -/
def daysInMonth (y : Int) (m : Nat) : Nat :=
  if m = 1 then (if isLeapYear y then 29 else 28)
  else if m = 3 ∨ m = 5 ∨ m = 8 ∨ m = 10 then 30
  else 31

/-- Normalize a (possibly ≥ 12) month count into a year increment and a month index. -/
def normMonth (y : Int) (m : Nat) : Int × Nat :=
  (y + (m / 12 : Nat), m % 12)

/-- Keep the day if it exists in the target month, otherwise roll the excess
days into the following month — the JS `Date` overflow convention
(for valid dates the excess is at most 3, so one roll suffices). -/
def rollDay (y : Int) (m : Nat) (d : Nat) : Date :=
  if d ≤ daysInMonth y m then ⟨y, m, d⟩
  else
    let d2 := d - daysInMonth y m
    let ym := normMonth y (m + 1)
    ⟨ym.1, ym.2, d2⟩

/-- JS `date.setMonth m` (with `m` the possibly-overflowing month count). -/
def setMonthJS (dt : Date) (m : Nat) : Date :=
  let ym := normMonth dt.year m
  rollDay ym.1 ym.2 dt.day

/-- JS `date.setFullYear y`. -/
def setFullYearJS (dt : Date) (y : Int) : Date :=
  rollDay y dt.month dt.day

/-- Specification-side calendar addition: same day of month, `k` months later.
Used to compare the source's `setMonth` arithmetic with the plain-words
"plus k calendar months" reading (meaningful when the day exists there). -/
def calendarAddMonths (d : Date) (k : Nat) : Date :=
  ⟨d.year + ((d.month + k) / 12 : Nat), (d.month + k) % 12, d.day⟩

/-- Billing cycles of the `billingCycle` enum. -/
inductive BillingCycle
  | oneTime
  | monthly
  | quarterly
  | yearly
deriving DecidableEq, Repr

/-- Subscription lifecycle states of the `status` enum. -/
inductive SubStatus
  | pending
  | active
  | paused
  | cancelled
  | expired
  | failed
deriving DecidableEq, Repr

/-- The `paymentStatus` enum (`partial` is spelled `partialPaid` here). -/
inductive PayStatus
  | pending
  | paid
  | failed
  | refunded
  | partialPaid
deriving DecidableEq, Repr

/-- Status of one record of `paymentHistory`. -/
inductive PayRecordStatus
  | pending
  | success
  | failed
  | refunded
deriving DecidableEq, Repr

/-- The `paymentMethod` enum. -/
inductive PayMethod
  | card
  | upi
  | netbanking
  | wallet
  | cash
  | cheque
deriving DecidableEq, Repr

/-- Service categories. -/
inductive Category
  | Cable
  | Silver
  | Snacks
  | Internet
  | Gaming
  | Design
  | Development
deriving DecidableEq, Repr

/-- `price` subdocument of a Service. -/
structure Price where
  amount : ℚ
  currency : String
deriving DecidableEq, Repr

/-- `availability` subdocument of a Service. -/
structure Availability where
  isActive : Bool
  maxSubscriptions : Option Int
  currentSubscriptions : Int
deriving DecidableEq, Repr

/-- `constraints` subdocument of a Service. -/
structure Constraints where
  maxQuantityPerUser : Nat
  minSubscriptionPeriod : Nat
  maxOnlineOrderValue : Option ℚ
  requiresQuote : Bool
deriving DecidableEq, Repr

/-- The Service entity (fields the subscription logic reads). -/
structure Service where
  id : Nat
  name : String
  category : Category
  price : Price
  availability : Availability
  constraints : Constraints
deriving DecidableEq, Repr

/-- `serviceSchema.methods.incrementSubscriptions`. -/
def Service.incrementSubscriptions (s : Service) : Service :=
  { s with availability :=
      { s.availability with
        currentSubscriptions := s.availability.currentSubscriptions + 1 } }

/-- `serviceSchema.methods.decrementSubscriptions` (guarded, floor at 0). -/
def Service.decrementSubscriptions (s : Service) : Service :=
  if s.availability.currentSubscriptions > 0 then
    { s with availability :=
        { s.availability with
          currentSubscriptions := s.availability.currentSubscriptions - 1 } }
  else s

/-- One entry of the `services` array of a creation request; `quantity`
is optional in the request body. -/
structure ReqItem where
  serviceId : Nat
  quantity : Option Nat
deriving DecidableEq, Repr

/-- JS `requestedService.quantity || 1`: absent or zero falls back to 1. -/
def jsQtyDefault : Option Nat → Nat
  | none => 1
  | some n => if n = 0 then 1 else n

/-- Errors a creation request can be rejected with. -/
inductive CreateErr
  | limitExceeded
  | validationFailed
  | servicesUnavailable
  | quantityExceeded (serviceName : String)
  | capacityUnavailable (serviceName : String)
  | quoteRequired
  | internalError
deriving DecidableEq, Repr

/-- `requestedService.quantity > service.constraints.maxQuantityPerUser`
(comparison with an absent quantity is false in JS). -/
def qtyViolationB (s : Service) (it : ReqItem) : Bool :=
  match it.quantity with
  | none => false
  | some q => decide (s.constraints.maxQuantityPerUser < q)

/-- `service.availability.maxSubscriptions && current >= max`: the cap is
consulted only when truthy (non-null and nonzero). -/
def capViolationB (s : Service) : Bool :=
  match s.availability.maxSubscriptions with
  | none => false
  | some m => decide (m ≠ 0) && decide (m ≤ s.availability.currentSubscriptions)

/-- The route's `service.category === 'Silver'` test. -/
def categoryRequiresQuote : Category → Bool
  | .Silver => true
  | _ => false

/-- Silver online-order check: with a truthy `maxOnlineOrderValue`,
`price.amount * quantity > maxOnlineOrderValue` rejects; an absent quantity
makes the product NaN, and `NaN > v` is false in JS. -/
def quoteViolationB (s : Service) (it : ReqItem) : Bool :=
  categoryRequiresQuote s.category &&
    (match s.constraints.maxOnlineOrderValue with
     | none => false
     | some v => decide (v ≠ 0) &&
         (match it.quantity with
          | none => false
          | some q => decide (v < s.price.amount * q)))

/-- The three per-line-item checks of the creation route, in source order:
quantity cap, capacity cap, Silver quote cap. -/
def validateItem (s : Service) (it : ReqItem) : Except CreateErr Unit :=
  if qtyViolationB s it then .error (.quantityExceeded s.name)
  else if capViolationB s then .error (.capacityUnavailable s.name)
  else if quoteViolationB s it then .error (.quoteRequired)
  else .ok ()

/-- `Service.find({_id ∈ ids, isActive: true})`: the active services of the
store whose id occurs among the requested ids, in store order. -/
def findActiveServices (db : List Service) (ids : List Nat) : List Service :=
  db.filter (fun s => s.availability.isActive && ids.contains s.id)

/-- The constraint loop of the creation route over all requested items;
a missing lookup inside the loop is the JS `TypeError` path. -/
def checkServicesLoop (found : List Service) : List ReqItem → Except CreateErr Unit
  | [] => .ok ()
  | it :: rest =>
    match found.find? (fun s => s.id == it.serviceId) with
    | none => .error .internalError
    | some s =>
      match validateItem s it with
      | .error e => .error e
      | .ok () => checkServicesLoop found rest

/-- Availability validation of the creation route: fetch the active requested
services, reject when the count differs from the number of requested items,
then run the constraint loop. -/
def validateServices (db : List Service) (items : List ReqItem) : Except CreateErr Unit :=
  let found := findActiveServices db (items.map (fun it => it.serviceId))
  if found.length ≠ items.length then .error .servicesUnavailable
  else checkServicesLoop found items

/-- `pricing` subdocument of a Subscription. -/
structure Pricing where
  subtotal : ℚ
  taxes : ℚ
  discounts : ℚ
  total : ℚ
  currency : String
deriving DecidableEq, Repr

/-- One stored line item of `subscription.services`, with the price snapshot
taken at creation time. -/
structure LineItem where
  serviceId : Nat
  quantity : Nat
  priceAtSubscription : ℚ
deriving DecidableEq, Repr

/-- `dates` subdocument of a Subscription. -/
structure Dates where
  startDate : Option Date
  endDate : Option Date
  nextBillingDate : Option Date
  lastPaymentDate : Option Date
  cancelledDate : Option Date
  pausedDate : Option Date
deriving DecidableEq, Repr

/-- One record of `paymentHistory`. -/
structure PaymentRecord where
  amount : ℚ
  method : PayMethod
  transactionId : Option String
  status : PayRecordStatus
  paidAt : Option Date
  notes : Option String
deriving DecidableEq, Repr

/-- `metadata` subdocument (the audit-notes trail; empty string for absent). -/
structure Metadata where
  notes : String
deriving DecidableEq, Repr

/-- The Subscription aggregate (fields the verified logic reads or writes). -/
structure Subscription where
  userId : Nat
  services : List LineItem
  pricing : Pricing
  billingCycle : BillingCycle
  status : SubStatus
  paymentStatus : PayStatus
  dates : Dates
  paymentHistory : List PaymentRecord
  metadata : Metadata
deriving DecidableEq, Repr

/-- Appending to the notes trail: `notes ? notes + "\n" + msg : msg`. -/
def appendNote (old msg : String) : String :=
  if old = "" then msg else old ++ "\n" ++ msg

/-- Next-billing-date computation of the pre-save hook's `switch`. -/
def computeNextBilling (start : Date) : BillingCycle → Option Date
  | .monthly => some (setMonthJS start (start.month + 1))
  | .quarterly => some (setMonthJS start (start.month + 3))
  | .yearly => some (setFullYearJS start (start.year + 1))
  | .oneTime => none

/-- `subscriptionSchema.pre('save')`: when the document is new or
`dates.startDate` or `billingCycle` was modified, recompute
`dates.nextBillingDate` from the (defaulted) start date. -/
def applyPreSave (now : Date) (isNew modStart modCycle : Bool)
    (s : Subscription) : Subscription :=
  if isNew || modStart || modCycle then
    let start := s.dates.startDate.getD now
    { s with dates := { s.dates with nextBillingDate := computeNextBilling start s.billingCycle } }
  else s

/-- `subscriptionSchema.methods.cancel`. -/
def Subscription.cancel (now : Date) (reason : String) (s : Subscription) : Subscription :=
  { s with
    status := .cancelled
    dates := { s.dates with cancelledDate := some now }
    metadata := { s.metadata with notes := appendNote s.metadata.notes ("Cancelled: " ++ reason) } }

/-- `subscriptionSchema.methods.pause`. -/
def Subscription.pause (now : Date) (reason : String) (s : Subscription) : Subscription :=
  { s with
    status := .paused
    dates := { s.dates with pausedDate := some now }
    metadata := { s.metadata with notes := appendNote s.metadata.notes ("Paused: " ++ reason) } }

/-- `subscriptionSchema.methods.resume`. -/
def Subscription.resume (s : Subscription) : Subscription :=
  { s with status := .active, dates := { s.dates with pausedDate := none } }

/-- `subscriptionSchema.methods.addPayment`: push the record, then on a
successful record mark the subscription paid and stamp the payment date. -/
def Subscription.addPayment (now : Date) (p : PaymentRecord) (s : Subscription) : Subscription :=
  let s1 := { s with paymentHistory := s.paymentHistory ++ [p] }
  if p.status = .success then
    { s1 with
      paymentStatus := .paid
      dates := { s1.dates with lastPaymentDate := some (p.paidAt.getD now) } }
  else s1

/-- `PUT /api/subscriptions/:id/cancel`: guard on terminal states, then the
model method; the subscription is returned unchanged on rejection. -/
def cancelRoute (now : Date) (reason : String) (s : Subscription) :
    Except String Unit × Subscription :=
  if s.status = .cancelled ∨ s.status = .expired then
    (.error "Subscription is already cancelled or expired", s)
  else (.ok (), s.cancel now reason)

/-- `PUT /api/subscriptions/:id/pause`: only `active` may pause. -/
def pauseRoute (now : Date) (reason : String) (s : Subscription) :
    Except String Unit × Subscription :=
  if s.status ≠ .active then
    (.error "Only active subscriptions can be paused", s)
  else (.ok (), s.pause now reason)

/-- `PUT /api/subscriptions/:id/resume`: only `paused` may resume. -/
def resumeRoute (s : Subscription) : Except String Unit × Subscription :=
  if s.status ≠ .paused then
    (.error "Only paused subscriptions can be resumed", s)
  else (.ok (), s.resume)

/-- A creation request after body parsing. -/
structure CreateReq where
  services : List ReqItem
  billingCycle : BillingCycle
deriving DecidableEq, Repr

/-- The persisted world the routes act on: the service store and the
subscription store. -/
structure AppState where
  services : List Service
  subscriptions : List Subscription
deriving DecidableEq, Repr

/-- `Subscription.countDocuments({userId, status: 'active'})`. -/
def countActiveSubs (subs : List Subscription) (uid : Nat) : Nat :=
  (subs.filter (fun s => s.userId == uid && s.status == SubStatus.active)).length

/-- The `validateSubscriptionLimits` middleware: reject when the count of
active subscriptions plus the number of requested line items exceeds 5. -/
def limitGuardRejects (st : AppState) (uid : Nat) (req : CreateReq) : Bool :=
  decide (5 < countActiveSubs st.subscriptions uid + req.services.length)

/-- The express-validator schema checks the claims depend on: a non-empty
`services` array, and any supplied quantity at least 1. -/
def schemaRejects (req : CreateReq) : Bool :=
  req.services.isEmpty || req.services.any (fun it => it.quantity == some 0)

/-- The pricing loop of the creation route: per item, look the service up,
default the quantity, accumulate `price.amount * quantity` into the subtotal
and collect the stored line item with its price snapshot. -/
def buildLineItems (found : List Service) : List ReqItem → Except CreateErr (ℚ × List LineItem)
  | [] => .ok (0, [])
  | it :: rest =>
    match found.find? (fun s => s.id == it.serviceId) with
    | none => .error .internalError
    | some s =>
      let q := jsQtyDefault it.quantity
      match buildLineItems found rest with
      | .error e => .error e
      | .ok (sub, ls) => .ok (s.price.amount * q + sub, ⟨s.id, q, s.price.amount⟩ :: ls)

/-- `POST /api/subscriptions`: middleware limit guard, schema validation,
service availability validation, pricing (18% GST, rounded), document
construction through the pre-save hook, then persistence: the new
subscription is appended and every fetched service's counter incremented.
Every rejection leaves the state untouched. -/
def createSubscription (now : Date) (uid : Nat) (req : CreateReq) (st : AppState) :
    Except CreateErr Subscription × AppState :=
  if limitGuardRejects st uid req then (.error .limitExceeded, st)
  else if schemaRejects req then (.error .validationFailed, st)
  else
    let ids := req.services.map (fun it => it.serviceId)
    let found := findActiveServices st.services ids
    match validateServices st.services req.services with
    | .error e => (.error e, st)
    | .ok () =>
      match buildLineItems found req.services with
      | .error e => (.error e, st)
      | .ok (subtotal, lineItems) =>
        let taxes : ℚ := (mathRound (subtotal * (18/100)) : ℤ)
        let total := subtotal + taxes
        let sub0 : Subscription :=
          { userId := uid
            services := lineItems
            pricing := { subtotal := subtotal, taxes := taxes, discounts := 0,
                         total := total, currency := "INR" }
            billingCycle := req.billingCycle
            status := .pending
            paymentStatus := .pending
            dates := { startDate := some now, endDate := none, nextBillingDate := none,
                       lastPaymentDate := none, cancelledDate := none, pausedDate := none }
            paymentHistory := []
            metadata := { notes := "" } }
        let sub := applyPreSave now true false false sub0
        let newServices := st.services.map
          (fun s => if s.availability.isActive && ids.contains s.id then
              s.incrementSubscriptions else s)
        (.ok sub, { services := newServices, subscriptions := st.subscriptions ++ [sub] })

/-- A per-item validation outcome is `ok` exactly when all three checks pass. -/
theorem validateItem_ok_iff (s : Service) (it : ReqItem) :
    validateItem s it = Except.ok () ↔
      qtyViolationB s it = false ∧ capViolationB s = false ∧ quoteViolationB s it = false := by
  unfold validateItem
  cases hq : qtyViolationB s it <;> cases hc : capViolationB s <;>
    cases hs : quoteViolationB s it <;> simp

/-- The pre-save hook only writes `dates.nextBillingDate`: pricing untouched. -/
theorem applyPreSave_pricing (now : Date) (f1 f2 f3 : Bool) (s : Subscription) :
    (applyPreSave now f1 f2 f3 s).pricing = s.pricing := by
  unfold applyPreSave; split <;> rfl

/-- The pre-save hook only writes `dates.nextBillingDate`: line items untouched. -/
theorem applyPreSave_services (now : Date) (f1 f2 f3 : Bool) (s : Subscription) :
    (applyPreSave now f1 f2 f3 s).services = s.services := by
  unfold applyPreSave; split <;> rfl

/-- C3: cancelling is rejected, with the subscription untouched, exactly when
the status is already `cancelled` or `expired` (in particular a second cancel
after a successful one is rejected); otherwise it sets `status = cancelled`,
stamps `cancelledDate` with the current time, appends the reason to the notes
trail joined by a newline with the prior notes preserved, and leaves every
other part of the aggregate unchanged. -/
theorem cancel_guard_and_effects (now : Date) (reason : String) (s : Subscription) :
    ((s.status = SubStatus.cancelled ∨ s.status = SubStatus.expired) →
      cancelRoute now reason s = (Except.error "Subscription is already cancelled or expired", s))
    ∧ (s.status ≠ SubStatus.cancelled → s.status ≠ SubStatus.expired →
      (cancelRoute now reason s).1 = Except.ok ()
      ∧ (cancelRoute now reason s).2.status = SubStatus.cancelled
      ∧ (cancelRoute now reason s).2.dates.cancelledDate = some now
      ∧ (cancelRoute now reason s).2.metadata.notes =
          (if s.metadata.notes = "" then "Cancelled: " ++ reason
           else s.metadata.notes ++ "\n" ++ ("Cancelled: " ++ reason))
      ∧ (∀ (now2 : Date) (r2 : String),
          cancelRoute now2 r2 (cancelRoute now reason s).2 =
            (Except.error "Subscription is already cancelled or expired",
              (cancelRoute now reason s).2))
      ∧ (cancelRoute now reason s).2.userId = s.userId
      ∧ (cancelRoute now reason s).2.services = s.services
      ∧ (cancelRoute now reason s).2.pricing = s.pricing
      ∧ (cancelRoute now reason s).2.billingCycle = s.billingCycle
      ∧ (cancelRoute now reason s).2.paymentStatus = s.paymentStatus
      ∧ (cancelRoute now reason s).2.paymentHistory = s.paymentHistory) := by
  constructor
  · intro h
    simp [cancelRoute, h]
  · intro h1 h2
    have hcond : ¬(s.status = SubStatus.cancelled ∨ s.status = SubStatus.expired) := by
      tauto
    simp [cancelRoute, hcond, Subscription.cancel, appendNote]

/-- C4: pausing succeeds exactly from `active`, setting `status = paused`,
stamping `pausedDate`, and appending the reason to the notes; from any other
status (`pending` included) the request is rejected and the aggregate is
returned entirely unmodified. -/
theorem pause_guard_and_effects (now : Date) (reason : String) (s : Subscription) :
    (s.status ≠ SubStatus.active →
      pauseRoute now reason s = (Except.error "Only active subscriptions can be paused", s))
    ∧ (s.status = SubStatus.active →
      (pauseRoute now reason s).1 = Except.ok ()
      ∧ (pauseRoute now reason s).2.status = SubStatus.paused
      ∧ (pauseRoute now reason s).2.dates.pausedDate = some now
      ∧ (pauseRoute now reason s).2.metadata.notes =
          (if s.metadata.notes = "" then "Paused: " ++ reason
           else s.metadata.notes ++ "\n" ++ ("Paused: " ++ reason))
      ∧ (pauseRoute now reason s).2.userId = s.userId
      ∧ (pauseRoute now reason s).2.services = s.services
      ∧ (pauseRoute now reason s).2.pricing = s.pricing
      ∧ (pauseRoute now reason s).2.billingCycle = s.billingCycle
      ∧ (pauseRoute now reason s).2.paymentStatus = s.paymentStatus
      ∧ (pauseRoute now reason s).2.paymentHistory = s.paymentHistory) := by
  constructor
  · intro h
    simp [pauseRoute, h]
  · intro h
    simp [pauseRoute, h, Subscription.pause, appendNote]

/-- C9: resuming succeeds exactly from `paused`, setting `status = active`
and clearing `pausedDate`; from any other status the request is rejected
with the aggregate unchanged. -/
theorem resume_guard_and_effects (s : Subscription) :
    (s.status ≠ SubStatus.paused →
      resumeRoute s = (Except.error "Only paused subscriptions can be resumed", s))
    ∧ (s.status = SubStatus.paused →
      (resumeRoute s).1 = Except.ok ()
      ∧ (resumeRoute s).2.status = SubStatus.active
      ∧ (resumeRoute s).2.dates.pausedDate = none
      ∧ (resumeRoute s).2.userId = s.userId
      ∧ (resumeRoute s).2.services = s.services
      ∧ (resumeRoute s).2.pricing = s.pricing
      ∧ (resumeRoute s).2.billingCycle = s.billingCycle
      ∧ (resumeRoute s).2.paymentStatus = s.paymentStatus
      ∧ (resumeRoute s).2.metadata = s.metadata
      ∧ (resumeRoute s).2.paymentHistory = s.paymentHistory) := by
  constructor
  · intro h
    simp [resumeRoute, h]
  · intro h
    simp [resumeRoute, h, Subscription.resume]

/-- C5: `addPayment` appends the record at the end of `paymentHistory`
(insertion order preserved); it sets `paymentStatus = paid` and
`lastPaymentDate` to the record's `paidAt` (or the current time when absent)
if and only if the record's status is `success`, and it never changes the
subscription's `status` field. -/
theorem addPayment_effects (now : Date) (p : PaymentRecord) (s : Subscription) :
    (s.addPayment now p).paymentHistory = s.paymentHistory ++ [p]
    ∧ (p.status = PayRecordStatus.success →
        (s.addPayment now p).paymentStatus = PayStatus.paid
        ∧ (s.addPayment now p).dates.lastPaymentDate = some (p.paidAt.getD now))
    ∧ (p.status ≠ PayRecordStatus.success →
        (s.addPayment now p).paymentStatus = s.paymentStatus
        ∧ (s.addPayment now p).dates.lastPaymentDate = s.dates.lastPaymentDate)
    ∧ (s.addPayment now p).status = s.status := by
  by_cases h : p.status = PayRecordStatus.success <;>
    simp [Subscription.addPayment, h]

/-- C10: with `availability.maxSubscriptions` equal to 0 the capacity guard
is skipped entirely — the per-item validation outcome does not depend on
`currentSubscriptions` and is never a capacity rejection (the creation route
treats a falsy cap as unset, not only a null one). -/
theorem zero_cap_skips_capacity (s : Service) (it : ReqItem)
    (h : s.availability.maxSubscriptions = some 0) :
    capViolationB s = false
    ∧ (∀ c : Int,
        validateItem
          { s with availability := { s.availability with currentSubscriptions := c } } it =
        validateItem s it)
    ∧ (∀ n : String, validateItem s it ≠ Except.error (CreateErr.capacityUnavailable n)) := by
  have hcap : capViolationB s = false := by
    unfold capViolationB
    rw [h]
    simp
  refine ⟨hcap, ?_, ?_⟩
  · intro c
    have hcap2 : capViolationB
        { s with availability := { s.availability with currentSubscriptions := c } } = false := by
      unfold capViolationB
      simp [h]
    have hq : qtyViolationB
        { s with availability := { s.availability with currentSubscriptions := c } } it =
        qtyViolationB s it := rfl
    have hs2 : quoteViolationB
        { s with availability := { s.availability with currentSubscriptions := c } } it =
        quoteViolationB s it := rfl
    unfold validateItem
    rw [hq, hs2, hcap, hcap2]
  · intro n
    unfold validateItem
    rw [hcap]
    cases hq : qtyViolationB s it <;> cases hs2 : quoteViolationB s it <;> simp

/-- C2: when a save is new or changed the start date or the billing cycle,
`nextBillingDate` is recomputed from the (defaulted) start date: absent
exactly for `one-time` regardless of the start date, and otherwise — whenever
the start day exists in the target month — equal to the start date plus
1 calendar month (monthly), 3 calendar months (quarterly), or 1 calendar
year (yearly). -/
theorem preSave_next_billing (now : Date) (isNew modStart modCycle : Bool)
    (s : Subscription) (start : Date)
    (htrig : (isNew || modStart || modCycle) = true)
    (hstart : s.dates.startDate.getD now = start) :
    ((applyPreSave now isNew modStart modCycle s).dates.nextBillingDate = none
      ↔ s.billingCycle = BillingCycle.oneTime)
    ∧ (s.billingCycle = BillingCycle.monthly →
        start.day ≤ daysInMonth (start.year + ((start.month + 1) / 12 : Nat)) ((start.month + 1) % 12) →
        (applyPreSave now isNew modStart modCycle s).dates.nextBillingDate =
          some (calendarAddMonths start 1))
    ∧ (s.billingCycle = BillingCycle.quarterly →
        start.day ≤ daysInMonth (start.year + ((start.month + 3) / 12 : Nat)) ((start.month + 3) % 12) →
        (applyPreSave now isNew modStart modCycle s).dates.nextBillingDate =
          some (calendarAddMonths start 3))
    ∧ (s.billingCycle = BillingCycle.yearly →
        start.day ≤ daysInMonth (start.year + 1) start.month →
        (applyPreSave now isNew modStart modCycle s).dates.nextBillingDate =
          some ⟨start.year + 1, start.month, start.day⟩) := by
  have happly : (applyPreSave now isNew modStart modCycle s).dates.nextBillingDate =
      computeNextBilling start s.billingCycle := by
    unfold applyPreSave
    rw [htrig]
    simp [hstart]
  refine ⟨?_, ?_, ?_, ?_⟩
  · rw [happly]
    cases s.billingCycle <;> simp [computeNextBilling]
  · intro hc hday
    rw [happly, hc]
    simp only [computeNextBilling, setMonthJS, normMonth, rollDay]
    rw [if_pos hday]
    rfl
  · intro hc hday
    rw [happly, hc]
    simp only [computeNextBilling, setMonthJS, normMonth, rollDay]
    rw [if_pos hday]
    rfl
  · intro hc hday
    rw [happly, hc]
    simp only [computeNextBilling, setFullYearJS, rollDay]
    rw [if_pos hday]

/-- A successful pricing loop yields exactly the sum of
`priceAtSubscription * quantity` over the line items it produced. -/
theorem buildLineItems_subtotal (found : List Service) :
    ∀ (items : List ReqItem) (sub : ℚ) (ls : List LineItem),
      buildLineItems found items = Except.ok (sub, ls) →
      sub = (ls.map (fun li => li.priceAtSubscription * (li.quantity : ℚ))).sum := by
  intro items
  induction items with
  | nil =>
    intro sub ls h
    unfold buildLineItems at h
    simp only [Except.ok.injEq, Prod.mk.injEq] at h
    obtain ⟨h1, h2⟩ := h
    subst h1
    subst h2
    simp
  | cons it rest ih =>
    intro sub ls h
    unfold buildLineItems at h
    cases hf : found.find? (fun s => s.id == it.serviceId) with
    | none => rw [hf] at h; exact absurd h (by simp)
    | some s =>
      rw [hf] at h
      cases hb : buildLineItems found rest with
      | error e => rw [hb] at h; exact absurd h (by simp)
      | ok p =>
        obtain ⟨sub2, ls2⟩ := p
        rw [hb] at h
        simp only [Except.ok.injEq, Prod.mk.injEq] at h
        obtain ⟨h1, h2⟩ := h
        subst h1
        subst h2
        have := ih sub2 ls2 hb
        simp [this]

/-- C1: on every successful creation the stored pricing satisfies
`subtotal = Σ unitPrice * quantity` over the line items,
`taxes = round-half-up(subtotal * 18/100)` as an integer amount, and
`total = subtotal + taxes`; in particular subtotal 1000 gives taxes 180 and
total 1180, and subtotal 0 gives taxes 0 and total 0. -/
theorem creation_pricing (now : Date) (uid : Nat) (req : CreateReq) (st : AppState)
    (sub : Subscription) (st2 : AppState)
    (h : createSubscription now uid req st = (Except.ok sub, st2)) :
    sub.pricing.subtotal =
      (sub.services.map (fun li => li.priceAtSubscription * (li.quantity : ℚ))).sum
    ∧ sub.pricing.taxes = ((mathRound (sub.pricing.subtotal * (18/100)) : ℤ) : ℚ)
    ∧ sub.pricing.total = sub.pricing.subtotal + sub.pricing.taxes
    ∧ (sub.pricing.subtotal = 1000 → sub.pricing.taxes = 180 ∧ sub.pricing.total = 1180)
    ∧ (sub.pricing.subtotal = 0 → sub.pricing.taxes = 0 ∧ sub.pricing.total = 0) := by
  unfold createSubscription at h
  by_cases h1 : limitGuardRejects st uid req = true
  · rw [if_pos h1] at h; exact absurd h (by simp)
  · rw [if_neg h1] at h
    by_cases h2 : schemaRejects req = true
    · rw [if_pos h2] at h; exact absurd h (by simp)
    · rw [if_neg h2] at h
      simp only at h
      cases hv : validateServices st.services req.services with
      | error e => rw [hv] at h; exact absurd h (by simp)
      | ok u =>
        cases u
        rw [hv] at h
        cases hb : buildLineItems
            (findActiveServices st.services (req.services.map (fun it => it.serviceId)))
            req.services with
        | error e => rw [hb] at h; exact absurd h (by simp)
        | ok p =>
          obtain ⟨subtotal, lineItems⟩ := p
          rw [hb] at h
          simp only [Prod.mk.injEq, Except.ok.injEq] at h
          obtain ⟨hsub, hst2⟩ := h
          have hsum := buildLineItems_subtotal _ _ _ _ hb
          have hpr : sub.pricing =
              { subtotal := subtotal,
                taxes := ((mathRound (subtotal * (18/100)) : ℤ) : ℚ),
                discounts := 0,
                total := subtotal + ((mathRound (subtotal * (18/100)) : ℤ) : ℚ),
                currency := "INR" } := by
            rw [← hsub, applyPreSave_pricing]
          have hsv : sub.services = lineItems := by
            rw [← hsub, applyPreSave_services]
          have hsubtotal : sub.pricing.subtotal = subtotal := by rw [hpr]
          have htaxes : sub.pricing.taxes = ((mathRound (subtotal * (18/100)) : ℤ) : ℚ) := by
            rw [hpr]
          have htotal : sub.pricing.total =
              subtotal + ((mathRound (subtotal * (18/100)) : ℤ) : ℚ) := by rw [hpr]
          refine ⟨?_, ?_, ?_, ?_, ?_⟩
          · rw [hsubtotal, hsv]; exact hsum
          · rw [htaxes, hsubtotal]
          · rw [htotal, htaxes, hsubtotal]
          · intro h1000
            rw [hsubtotal] at h1000
            subst h1000
            constructor
            · rw [htaxes]
              norm_num [mathRound]
            · rw [htotal]
              norm_num [mathRound]
          · intro h0
            rw [hsubtotal] at h0
            subst h0
            constructor
            · rw [htaxes]
              norm_num [mathRound]
            · rw [htotal]
              norm_num [mathRound]

/-- C7: the per-user limit middleware runs before every per-line-item check:
whenever the count of the user's active subscriptions plus the number of
requested line items exceeds the fixed limit 5, the creation request is
rejected with the limit error — whatever the line items contain — and the
state is returned with nothing written. -/
theorem limit_guard_first (now : Date) (uid : Nat) (req : CreateReq) (st : AppState)
    (h : 5 < countActiveSubs st.subscriptions uid + req.services.length) :
    createSubscription now uid req st = (Except.error CreateErr.limitExceeded, st) := by
  unfold createSubscription
  have hg : limitGuardRejects st uid req = true := by
    unfold limitGuardRejects
    exact decide_eq_true h
  rw [if_pos hg]

/-- Membership in the fetched-services list. -/
theorem mem_findActiveServices (db : List Service) (ids : List Nat) (s : Service) :
    s ∈ findActiveServices db ids ↔
      s ∈ db ∧ s.availability.isActive = true ∧ s.id ∈ ids := by
  unfold findActiveServices
  simp [List.mem_filter, and_assoc]

/-- The requested item `it` resolves to an active stored service that passes
all its per-item checks. -/
def ItemSatisfiable (db : List Service) (it : ReqItem) : Prop :=
  ∃ s ∈ db, (s.availability.isActive = true ∧ s.id = it.serviceId)
    ∧ validateItem s it = Except.ok ()

/-- The constraint loop succeeds exactly when every requested item finds its
service in the fetched list and passes `validateItem`. -/
theorem checkServicesLoop_ok_iff (found : List Service) (items : List ReqItem) :
    checkServicesLoop found items = Except.ok () ↔
      ∀ it ∈ items, ∃ s, found.find? (fun s2 => s2.id == it.serviceId) = some s
        ∧ validateItem s it = Except.ok () := by
  induction items with
  | nil => simp [checkServicesLoop]
  | cons it rest ih =>
    unfold checkServicesLoop
    constructor
    · intro h
      split at h
      · exact absurd h (by simp)
      · rename_i s hfind
        split at h
        · exact absurd h (by simp)
        · intro it2 hit2
          rcases List.mem_cons.mp hit2 with h1 | h1
          · subst h1
            exact ⟨s, hfind, by assumption⟩
          · exact ih.mp h it2 h1
    · intro h
      obtain ⟨s, hfind, hval⟩ := h it (by simp)
      simp only [hfind, hval]
      exact ih.mpr (fun it2 h2 => h it2 (List.mem_cons_of_mem _ h2))

/-- With unique store ids and unique requested ids, the fetched-count test of
the creation route succeeds exactly when every requested item has an active
service in the store. -/
theorem findActive_length_eq_iff (db : List Service) (items : List ReqItem)
    (hdb : (db.map Service.id).Nodup)
    (hni : ((items.map (fun it => it.serviceId)) : List Nat).Nodup) :
    (findActiveServices db (items.map (fun it => it.serviceId))).length = items.length ↔
      ∀ it ∈ items, ∃ s ∈ db, s.availability.isActive = true ∧ s.id = it.serviceId := by
  have hlen_ids : (items.map (fun it => it.serviceId)).length = items.length := by simp
  have hfsub : List.Sublist
      (findActiveServices db (items.map (fun it => it.serviceId))) db :=
    List.filter_sublist db
  have hfmap_nodup :
      ((findActiveServices db (items.map (fun it => it.serviceId))).map Service.id).Nodup :=
    hdb.sublist (hfsub.map Service.id)
  have hsub1 :
      ((findActiveServices db (items.map (fun it => it.serviceId))).map Service.id) ⊆
        items.map (fun it => it.serviceId) := by
    intro x hx
    obtain ⟨s, hs, rfl⟩ := List.mem_map.mp hx
    exact ((mem_findActiveServices db _ s).mp hs).2.2
  constructor
  · intro hlen it1 hit1
    have hA : ((findActiveServices db (items.map (fun it => it.serviceId))).map
        Service.id).toFinset.card =
        (findActiveServices db (items.map (fun it => it.serviceId))).length := by
      rw [List.toFinset_card_of_nodup hfmap_nodup, List.length_map]
    have hB : (items.map (fun it => it.serviceId)).toFinset.card =
        (items.map (fun it => it.serviceId)).length :=
      List.toFinset_card_of_nodup hni
    have hsubF : ((findActiveServices db (items.map (fun it => it.serviceId))).map
        Service.id).toFinset ⊆ (items.map (fun it => it.serviceId)).toFinset := by
      intro x hx
      exact List.mem_toFinset.mpr (hsub1 (List.mem_toFinset.mp hx))
    have heq : ((findActiveServices db (items.map (fun it => it.serviceId))).map
        Service.id).toFinset = (items.map (fun it => it.serviceId)).toFinset := by
      apply Finset.eq_of_subset_of_card_le hsubF
      rw [hA, hB, hlen, hlen_ids]
    have hmem : it1.serviceId ∈
        (findActiveServices db (items.map (fun it => it.serviceId))).map Service.id := by
      rw [← List.mem_toFinset, heq, List.mem_toFinset]
      exact List.mem_map.mpr ⟨it1, hit1, rfl⟩
    obtain ⟨s, hsf, hsid⟩ := List.mem_map.mp hmem
    have hm := (mem_findActiveServices db _ s).mp hsf
    exact ⟨s, hm.1, hm.2.1, hsid⟩
  · intro hall
    have hsub2 : (items.map (fun it => it.serviceId)) ⊆
        ((findActiveServices db (items.map (fun it => it.serviceId))).map Service.id) := by
      intro x hx
      obtain ⟨it1, hit1, rfl⟩ := List.mem_map.mp hx
      obtain ⟨s, hsdb, hact, hsid⟩ := hall it1 hit1
      have hmem : s ∈ findActiveServices db (items.map (fun it => it.serviceId)) := by
        rw [mem_findActiveServices]
        exact ⟨hsdb, hact, by rw [hsid]; exact List.mem_map.mpr ⟨it1, hit1, rfl⟩⟩
      exact List.mem_map.mpr ⟨s, hmem, hsid⟩
    have h1 := (List.subperm_of_subset hfmap_nodup hsub1).length_le
    have h2 := (List.subperm_of_subset hni hsub2).length_le
    have hle := le_antisymm h1 h2
    rw [List.length_map] at hle
    rw [hle, hlen_ids]

/-- If the availability validation of the creation route succeeds, every
requested item is satisfiable (this direction needs no uniqueness
assumptions). -/
theorem validateServices_ok_forall (db : List Service) (items : List ReqItem)
    (h : validateServices db items = Except.ok ()) :
    ∀ it ∈ items, ItemSatisfiable db it := by
  unfold validateServices at h
  by_cases hlen : (findActiveServices db (items.map (fun it => it.serviceId))).length ≠
      items.length
  · rw [if_pos hlen] at h
    exact absurd h (by simp)
  · rw [if_neg hlen] at h
    intro it1 hit1
    obtain ⟨s, hsf, hok⟩ := (checkServicesLoop_ok_iff _ _).mp h it1 hit1
    have hpred := List.find?_some hsf
    have hsmem := List.mem_of_find?_eq_some hsf
    have hm := (mem_findActiveServices db _ s).mp hsmem
    exact ⟨s, hm.1, ⟨hm.2.1, by simpa using hpred⟩, hok⟩

/-- With unique store ids and unique requested ids, availability validation
succeeds exactly when every requested item is satisfiable. -/
theorem validateServices_ok_iff (db : List Service) (items : List ReqItem)
    (hdb : (db.map Service.id).Nodup)
    (hni : ((items.map (fun it => it.serviceId)) : List Nat).Nodup) :
    validateServices db items = Except.ok () ↔ ∀ it ∈ items, ItemSatisfiable db it := by
  constructor
  · exact validateServices_ok_forall db items
  · intro hall
    have hex : ∀ it ∈ items, ∃ s ∈ db, s.availability.isActive = true ∧ s.id = it.serviceId := by
      intro it1 hit1
      obtain ⟨s, hs, ⟨ha, hid⟩, _⟩ := hall it1 hit1
      exact ⟨s, hs, ha, hid⟩
    have hlen := (findActive_length_eq_iff db items hdb hni).mpr hex
    unfold validateServices
    rw [if_neg (by simp [hlen])]
    apply (checkServicesLoop_ok_iff _ _).mpr
    intro it1 hit1
    obtain ⟨s, hsdb, ⟨hact, hid⟩, hok⟩ := hall it1 hit1
    have hsf : s ∈ findActiveServices db (items.map (fun it => it.serviceId)) := by
      rw [mem_findActiveServices]
      exact ⟨hsdb, hact, by rw [hid]; exact List.mem_map.mpr ⟨it1, hit1, rfl⟩⟩
    have hne : (findActiveServices db (items.map (fun it => it.serviceId))).find?
        (fun s2 => s2.id == it1.serviceId) ≠ none := by
      intro hnone
      have := List.find?_eq_none.mp hnone s hsf
      exact this (by simp [hid])
    obtain ⟨s2, hs2⟩ := Option.ne_none_iff_exists'.mp hne
    have hpred := List.find?_some hs2
    have hs2mem := List.mem_of_find?_eq_some hs2
    have hs2db : s2 ∈ db := ((mem_findActiveServices db _ s2).mp hs2mem).1
    have hs2id : s2.id = it1.serviceId := by simpa using hpred
    have hss : s2 = s := List.inj_on_of_nodup_map hdb hs2db hsdb (hs2id.trans hid.symm)
    subst hss
    exact ⟨s2, hs2, hok⟩

/-- C6: per requested line item the creation route checks, in order,
(1) existence of an active service, (2) the per-user quantity cap,
(3) the capacity cap when truthy, (4) the Silver quote cap when truthy; the
first failing check of an item determines its error, a request containing any
violating item is rejected with the state left untouched (fail-fast, no
partial application), and — for stores and requests without duplicate
service ids — validation succeeds exactly when every item passes all
checks. -/
theorem creation_validation_failfast :
    (∀ (s : Service) (it : ReqItem),
      (qtyViolationB s it = true →
        validateItem s it = Except.error (CreateErr.quantityExceeded s.name))
      ∧ (qtyViolationB s it = false → capViolationB s = true →
        validateItem s it = Except.error (CreateErr.capacityUnavailable s.name))
      ∧ (qtyViolationB s it = false → capViolationB s = false → quoteViolationB s it = true →
        validateItem s it = Except.error CreateErr.quoteRequired)
      ∧ (qtyViolationB s it = false → capViolationB s = false → quoteViolationB s it = false →
        validateItem s it = Except.ok ()))
    ∧ (∀ (now : Date) (uid : Nat) (req : CreateReq) (st : AppState),
        (∃ it ∈ req.services, ¬ ItemSatisfiable st.services it) →
        ∃ e, createSubscription now uid req st = (Except.error e, st))
    ∧ (∀ (db : List Service) (items : List ReqItem),
        (db.map Service.id).Nodup →
        ((items.map (fun it => it.serviceId)) : List Nat).Nodup →
        (validateServices db items = Except.ok () ↔ ∀ it ∈ items, ItemSatisfiable db it)) := by
  refine ⟨?_, ?_, ?_⟩
  · intro s it
    refine ⟨?_, ?_, ?_, ?_⟩ <;> intros <;> simp [validateItem, *]
  · intro now uid req st hex
    obtain ⟨it1, hit1, hviol⟩ := hex
    unfold createSubscription
    by_cases h1 : limitGuardRejects st uid req = true
    · exact ⟨CreateErr.limitExceeded, by rw [if_pos h1]⟩
    · rw [if_neg h1]
      by_cases h2 : schemaRejects req = true
      · exact ⟨CreateErr.validationFailed, by rw [if_pos h2]⟩
      · rw [if_neg h2]
        cases hv : validateServices st.services req.services with
        | ok u =>
          cases u
          exact absurd (validateServices_ok_forall st.services req.services hv it1 hit1) hviol
        | error e =>
          refine ⟨e, ?_⟩
          simp only [hv]
  · exact validateServices_ok_iff

-- Decidable equality for route results, for concrete evaluation.
deriving instance DecidableEq for Except

/-- Does a validation result signal success? -/
def exceptOkB (r : Except CreateErr Unit) : Bool :=
  match r with
  | .ok _ => true
  | .error _ => false

/-- Operations of the repository that touch a service's subscription counter:
a creation whose item passed validation against an active service, and a
cancellation decrement. -/
inductive ServiceOp
  | create (it : ReqItem)
  | cancelOne
deriving DecidableEq, Repr

/-- One counter-touching step: a creation increments only after the service
was fetched as active and its item validation succeeded; a cancellation runs
the clamped decrement. -/
def serviceStep (s : Service) : ServiceOp → Service
  | .create it =>
      if s.availability.isActive && exceptOkB (validateItem s it) then
        s.incrementSubscriptions
      else s
  | .cancelOne => s.decrementSubscriptions

/-- Run a sequence of counter-touching operations. -/
def runServiceOps (s : Service) : List ServiceOp → Service
  | [] => s
  | op :: ops => runServiceOps (serviceStep s op) ops

/-- Unfolding equation: the creation step. -/
theorem serviceStep_create (s : Service) (it : ReqItem) :
    serviceStep s (.create it) =
      if s.availability.isActive && exceptOkB (validateItem s it) then
        s.incrementSubscriptions
      else s := rfl

/-- Unfolding equation: the cancellation step. -/
theorem serviceStep_cancel (s : Service) :
    serviceStep s .cancelOne = s.decrementSubscriptions := rfl

/-- The increment adds one to the counter. -/
theorem incrementSubscriptions_current (s : Service) :
    (s.incrementSubscriptions).availability.currentSubscriptions =
      s.availability.currentSubscriptions + 1 := rfl

/-- The increment keeps the cap. -/
theorem incrementSubscriptions_max (s : Service) :
    (s.incrementSubscriptions).availability.maxSubscriptions =
      s.availability.maxSubscriptions := rfl

/-- The decrement is clamped at zero. -/
theorem decrementSubscriptions_current (s : Service) :
    (s.decrementSubscriptions).availability.currentSubscriptions =
      (if s.availability.currentSubscriptions > 0 then
        s.availability.currentSubscriptions - 1
      else s.availability.currentSubscriptions) := by
  unfold Service.decrementSubscriptions
  split <;> rfl

/-- The decrement keeps the cap. -/
theorem decrementSubscriptions_max (s : Service) :
    (s.decrementSubscriptions).availability.maxSubscriptions =
      s.availability.maxSubscriptions := by
  unfold Service.decrementSubscriptions
  split <;> rfl

/-- A counter step never changes `maxSubscriptions`. -/
theorem serviceStep_max (s : Service) (op : ServiceOp) :
    (serviceStep s op).availability.maxSubscriptions = s.availability.maxSubscriptions := by
  cases op with
  | create it =>
    rw [serviceStep_create]
    split
    · exact incrementSubscriptions_max s
    · rfl
  | cancelOne =>
    rw [serviceStep_cancel]
    exact decrementSubscriptions_max s

/-- A counter step keeps the counter nonnegative. -/
theorem serviceStep_nonneg (s : Service) (op : ServiceOp)
    (h0 : 0 ≤ s.availability.currentSubscriptions) :
    0 ≤ (serviceStep s op).availability.currentSubscriptions := by
  cases op with
  | create it =>
    rw [serviceStep_create]
    split
    · rw [incrementSubscriptions_current]
      omega
    · exact h0
  | cancelOne =>
    rw [serviceStep_cancel, decrementSubscriptions_current]
    split <;> omega

/-- A counter step keeps the counter below a positive cap. -/
theorem serviceStep_le_cap (s : Service) (op : ServiceOp) (m : Int)
    (hm : s.availability.maxSubscriptions = some m) (hpos : 0 < m)
    (hle : s.availability.currentSubscriptions ≤ m) :
    (serviceStep s op).availability.currentSubscriptions ≤ m := by
  cases op with
  | create it =>
    rw [serviceStep_create]
    split
    · rename_i hcond
      have hok : validateItem s it = Except.ok () := by
        have hb := (Bool.and_eq_true _ _).mp hcond |>.2
        unfold exceptOkB at hb
        cases hv : validateItem s it with
        | ok u => cases u; rfl
        | error e => rw [hv] at hb; exact absurd hb (by simp)
      have hcap : capViolationB s = false := ((validateItem_ok_iff s it).mp hok).2.1
      unfold capViolationB at hcap
      rw [hm] at hcap
      have hne : m ≠ 0 := by omega
      simp [hne] at hcap
      rw [incrementSubscriptions_current]
      omega
    · exact hle
  | cancelOne =>
    rw [serviceStep_cancel, decrementSubscriptions_current]
    split <;> omega

/-- C8 (amended): across every sequence of creation and cancellation
operations, `currentSubscriptions` never becomes negative (the decrement is
floor-clamped at 0), and it never exceeds `maxSubscriptions` when the cap is
set to a positive value — a cap of 0 is treated as unset by the creation
guard, see the counterexample. -/
theorem counter_invariant (s : Service) (ops : List ServiceOp)
    (h0 : 0 ≤ s.availability.currentSubscriptions) :
    0 ≤ (runServiceOps s ops).availability.currentSubscriptions
    ∧ (∀ m : Int, s.availability.maxSubscriptions = some m → 0 < m →
        s.availability.currentSubscriptions ≤ m →
        (runServiceOps s ops).availability.currentSubscriptions ≤ m) := by
  induction ops generalizing s with
  | nil => exact ⟨h0, fun m _ _ hle => hle⟩
  | cons op ops ih =>
    have hmain := ih (serviceStep s op) (serviceStep_nonneg s op h0)
    refine ⟨hmain.1, ?_⟩
    intro m hm hpos hle
    exact hmain.2 m ((serviceStep_max s op).trans hm) hpos
      (serviceStep_le_cap s op m hm hpos hle)

/-- A cable service used for concrete runs. -/
def svcCable : Service :=
  { id := 1
    name := "Cable TV"
    category := .Cable
    price := { amount := 500, currency := "INR" }
    availability := { isActive := true, maxSubscriptions := none, currentSubscriptions := 0 }
    constraints := { maxQuantityPerUser := 5, minSubscriptionPeriod := 1,
                     maxOnlineOrderValue := none, requiresQuote := false } }

/-- A service whose capacity cap is the falsy value 0. -/
def svcZero : Service :=
  { id := 2
    name := "Legacy Pack"
    category := .Snacks
    price := { amount := 100, currency := "INR" }
    availability := { isActive := true, maxSubscriptions := some 0, currentSubscriptions := 0 }
    constraints := { maxQuantityPerUser := 3, minSubscriptionPeriod := 1,
                     maxOnlineOrderValue := none, requiresQuote := false } }

/-- 2024-01-15 (month index 0). -/
def d0 : Date := ⟨2024, 0, 15⟩

/-- A minimal subscription record. -/
def defaultSub : Subscription :=
  { userId := 0
    services := []
    pricing := { subtotal := 0, taxes := 0, discounts := 0, total := 0, currency := "INR" }
    billingCycle := .monthly
    status := .pending
    paymentStatus := .pending
    dates := { startDate := none, endDate := none, nextBillingDate := none,
               lastPaymentDate := none, cancelledDate := none, pausedDate := none }
    paymentHistory := []
    metadata := { notes := "" } }

/-- An active subscription. -/
def subActive : Subscription := { defaultSub with status := .active }

/-- A paused subscription. -/
def subPaused : Subscription :=
  { defaultSub with
    status := SubStatus.paused
    dates := { defaultSub.dates with pausedDate := some d0 } }

/-- A yearly subscription starting 2024-01-15. -/
def subYear : Subscription :=
  { defaultSub with
    billingCycle := BillingCycle.yearly
    dates := { defaultSub.dates with startDate := some ⟨2024, 0, 15⟩ } }

/-- A one-time subscription with no explicit start date. -/
def subOneTime : Subscription := { defaultSub with billingCycle := .oneTime }

/-- The §8 end-to-end request: two units of the 500-INR cable service. -/
def demoReq : CreateReq := { services := [⟨1, some 2⟩], billingCycle := .monthly }

/-- Store with the cable service and no subscriptions. -/
def st0 : AppState := { services := [svcCable], subscriptions := [] }

/-- State after the demo creation. -/
def demoSt2 : AppState := (createSubscription d0 7 demoReq st0).2

/-- The subscription produced by the demo creation. -/
def demoSub : Subscription := ((createSubscription d0 7 demoReq st0).1).toOption.getD defaultSub

/-- Store where user 7 already has five active subscriptions. -/
def st5 : AppState :=
  { services := [svcCable]
    subscriptions := List.replicate 5 { defaultSub with userId := 7, status := SubStatus.active } }

/-- A successful payment record. -/
def payRec : PaymentRecord :=
  { amount := 500, method := .upi, transactionId := some "TXN1",
    status := .success, paidAt := some ⟨2024, 1, 2⟩, notes := none }

set_option maxRecDepth 40000 in
/-- Witness for the pricing claim: the end-to-end demo run yields
subtotal 1000, taxes 180, total 1180. -/
theorem creation_pricing_witness :
    demoSub.pricing.subtotal = 1000
    ∧ demoSub.pricing.taxes = 180
    ∧ demoSub.pricing.total = 1180 := by
  have hsub : demoSub.pricing.subtotal = 1000 := by with_unfolding_all decide
  have h1180 := (creation_pricing d0 7 demoReq st0 demoSub demoSt2
    (by with_unfolding_all decide)).2.2.2.1 hsub
  exact ⟨hsub, h1180.1, h1180.2⟩

/-- Witness for the billing-date claim: yearly from 2024-01-15 lands on
2025-01-15, and one-time has no next billing date. -/
theorem preSave_next_billing_witness :
    (applyPreSave d0 true false false subYear).dates.nextBillingDate = some ⟨2025, 0, 15⟩
    ∧ (applyPreSave d0 true false false subOneTime).dates.nextBillingDate = none := by
  constructor
  · have h := (preSave_next_billing d0 true false false subYear ⟨2024, 0, 15⟩
      (by decide) (by decide)).2.2.2 rfl (by decide)
    rw [h]
    decide
  · exact (preSave_next_billing d0 true false false subOneTime d0
      (by decide) (by decide)).1.mpr rfl

/-- Witness for the cancel claim: cancelling an active subscription succeeds,
marks it cancelled, and a second cancel is rejected with no change. -/
theorem cancel_guard_witness :
    (cancelRoute d0 "no longer needed" subActive).1 = Except.ok ()
    ∧ (cancelRoute d0 "no longer needed" subActive).2.status = SubStatus.cancelled
    ∧ cancelRoute d0 "again" (cancelRoute d0 "no longer needed" subActive).2 =
        (Except.error "Subscription is already cancelled or expired",
          (cancelRoute d0 "no longer needed" subActive).2) := by
  have h := (cancel_guard_and_effects d0 "no longer needed" subActive).2
    (by decide) (by decide)
  exact ⟨h.1, h.2.1, h.2.2.2.2.1 d0 "again"⟩

/-- Witness for the pause claim: pausing a pending subscription is rejected
unchanged; pausing an active one marks it paused. -/
theorem pause_guard_witness :
    pauseRoute d0 "hold" defaultSub =
      (Except.error "Only active subscriptions can be paused", defaultSub)
    ∧ (pauseRoute d0 "hold" subActive).2.status = SubStatus.paused := by
  exact ⟨(pause_guard_and_effects d0 "hold" defaultSub).1 (by decide),
    ((pause_guard_and_effects d0 "hold" subActive).2 (by decide)).2.1⟩

/-- Witness for the addPayment claim: a successful record marks the
subscription paid, stamps its payment date, and leaves `status` alone. -/
theorem addPayment_witness :
    (defaultSub.addPayment d0 payRec).paymentStatus = PayStatus.paid
    ∧ (defaultSub.addPayment d0 payRec).dates.lastPaymentDate = some ⟨2024, 1, 2⟩
    ∧ (defaultSub.addPayment d0 payRec).status = defaultSub.status := by
  have h := addPayment_effects d0 payRec defaultSub
  have h2 := h.2.1 (by decide)
  refine ⟨h2.1, ?_, h.2.2.2⟩
  rw [h2.2]
  decide

/-- Witness for the validation claim: the demo request validates, and a
quantity of 6 against a cap of 5 is rejected with the quantity error. -/
theorem creation_validation_witness :
    validateServices [svcCable] [⟨1, some 2⟩] = Except.ok ()
    ∧ validateItem svcCable ⟨1, some 6⟩ =
        Except.error (CreateErr.quantityExceeded "Cable TV") := by
  constructor
  · apply (creation_validation_failfast.2.2 [svcCable] [⟨1, some 2⟩]
      (by decide) (by decide)).mpr
    intro it hitm
    have hit : it = ⟨1, some 2⟩ := List.mem_singleton.mp hitm
    subst hit
    exact ⟨svcCable, List.mem_singleton.mpr rfl, ⟨rfl, rfl⟩, by decide⟩
  · have h := (creation_validation_failfast.1 svcCable ⟨1, some 6⟩).1 (by decide)
    rw [h]
    rfl

/-- Witness for the limit claim: a user with five active subscriptions is
rejected with the limit error and nothing written. -/
theorem limit_guard_witness :
    createSubscription d0 7 demoReq st5 = (Except.error CreateErr.limitExceeded, st5) :=
  limit_guard_first d0 7 demoReq st5 (by decide)

/-- State of the cable service after a create and two cancel decrements. -/
def traceResult : Service :=
  runServiceOps svcCable [ServiceOp.create ⟨1, some 2⟩, ServiceOp.cancelOne, ServiceOp.cancelOne]

/-- Witness for the counter-invariant claim on a concrete trace. -/
theorem counter_invariant_witness :
    0 ≤ traceResult.availability.currentSubscriptions :=
  (counter_invariant svcCable
    [ServiceOp.create ⟨1, some 2⟩, ServiceOp.cancelOne, ServiceOp.cancelOne]
    (by decide)).1

/-- Counterexample to the unrestricted cap claim: with the cap set to the
falsy value 0 a creation still increments, so the counter exceeds the cap. -/
theorem counter_cap_counterexample :
    svcZero.availability.maxSubscriptions = some 0
    ∧ 0 ≤ svcZero.availability.currentSubscriptions
    ∧ svcZero.availability.currentSubscriptions ≤ 0
    ∧ (runServiceOps svcZero [ServiceOp.create ⟨2, some 1⟩]).availability.maxSubscriptions =
        some 0
    ∧ ¬ ((runServiceOps svcZero [ServiceOp.create ⟨2, some 1⟩]).availability.currentSubscriptions
          ≤ 0) := by
  decide

/-- Witness for the resume claim: resuming a paused subscription reactivates
it and clears `pausedDate`; resuming a pending one is rejected unchanged. -/
theorem resume_guard_witness :
    (resumeRoute subPaused).1 = Except.ok ()
    ∧ (resumeRoute subPaused).2.status = SubStatus.active
    ∧ (resumeRoute subPaused).2.dates.pausedDate = none
    ∧ resumeRoute defaultSub =
        (Except.error "Only paused subscriptions can be resumed", defaultSub) := by
  have h := (resume_guard_and_effects subPaused).2 (by decide)
  exact ⟨h.1, h.2.1, h.2.2.1, (resume_guard_and_effects defaultSub).1 (by decide)⟩

/-- Witness for the zero-cap claim at a concrete service: the capacity check
is skipped however large the current counter is. -/
theorem zero_cap_witness :
    capViolationB svcZero = false
    ∧ validateItem
        { svcZero with availability :=
            { svcZero.availability with currentSubscriptions := 1000000 } } ⟨2, some 1⟩ =
      validateItem svcZero ⟨2, some 1⟩ := by
  have h := zero_cap_skips_capacity svcZero ⟨2, some 1⟩ (by decide)
  exact ⟨h.1, h.2.1 1000000⟩
